import Mathlib

/-
Verification development for the row-search routing layer and the
document-store wrapper of this repository.

The embedding translates the TypeScript sources directly:
  * `putDoc`, `getPouchDB`      — the PouchDB wrapper (timestamps on put);
  * `extractTableFields`        — the recursive relational field expansion
                                  (the stateful `handledTables` set is threaded
                                  explicitly; the unbounded JS recursion is
                                  modelled with an explicit fuel parameter,
                                  `ExtractRes.outOfFuel` marking exhaustion);
  * `getQueriableFields`        — seeds the result with the identifier field;
  * `search`                    — the full pipeline with its collaborators
                                  (filter cleanup, table store, input mapping,
                                  executors) passed as opaque parameters, and
                                  an event log recording schema fetches and
                                  executor invocations;
  * `pickApi`, `exportRows`, `fetch`, `fetchRaw`, `fetchView`
                                — the locality-routed read paths.
-/

namespace Budibase

/-- Field types; the expansion code only distinguishes `LINK` from the rest. -/
inductive FieldType where
  | link
  | text
  | number
deriving DecidableEq, Repr

/-- One entry of a table schema: its type, the column or relationship name
(`subSchema.name`), the related table identifier for link fields, and the
optional visibility flag. -/
structure FieldSchema where
  type : FieldType
  name : String
  tableId : String := ""
  visible : Option Bool := none
deriving DecidableEq, Repr

/-- A table: identifier, human name, and schema as an association list of
field name to field definition (JS object keys are unique and ordered). -/
structure Table where
  _id : String
  name : String
  schema : List (String × FieldSchema)
deriving DecidableEq, Repr

/-- The table store boundary: `sdk.tables.getTable`, `none` meaning NotFound. -/
def TableStore : Type := String → Option Table

/-- The visited-set key built by the JS template literal. -/
def visitKey (a b : String) : String := a ++ "_" ++ b

/-- Outcome of the relational expansion: a field list together with the final
visited set, a missing related table, or fuel exhaustion (the JS function has
no fuel; `outOfFuel` for every fuel value models divergence). -/
inductive ExtractRes where
  | ok (fields : List String) (visited : List String)
  | notFound (tableId : String)
  | outOfFuel
deriving DecidableEq, Repr

/-- The loop body of `extractTableFields` over the filtered schema entries,
parametrised by the recursive call `recurse` so that the recursion is
structural. Mirrors the JS loop: a link field is skipped when the key
`visitKey table._id sub.tableId` is already in the visited set; otherwise the
reversed key `visitKey sub.tableId table._id` is added, the related table is
fetched, its fields are expanded over its entire schema key set, and the
results are pushed twice (relationship-name prefix, then table-name prefix). -/
def extractLoopF (env : TableStore)
    (recurse : Table → List String → List String → ExtractRes) :
    Table → List (String × FieldSchema) → List String → ExtractRes
  | _, [], visited => .ok [] visited
  | table, (field, subSchema) :: rest, visited =>
    if subSchema.type = FieldType.link then
      if visited.contains (visitKey table._id subSchema.tableId) then
        extractLoopF env recurse table rest visited
      else
        let visited' := visited.insert (visitKey subSchema.tableId table._id)
        match env subSchema.tableId with
        | none => .notFound subSchema.tableId
        | some relatedTable =>
          match recurse relatedTable (relatedTable.schema.map Prod.fst) visited' with
          | .ok relatedFields visited'' =>
            match extractLoopF env recurse table rest visited'' with
            | .ok restFields visited''' =>
              .ok ((relatedFields.map (fun f => subSchema.name ++ "." ++ f)) ++
                   ((relatedFields.map (fun f => relatedTable.name ++ "." ++ f)) ++
                    restFields)) visited'''
            | .notFound t => .notFound t
            | .outOfFuel => .outOfFuel
          | .notFound t => .notFound t
          | .outOfFuel => .outOfFuel
    else
      match extractLoopF env recurse table rest visited with
      | .ok restFields visited'' => .ok (field :: restFields) visited''
      | .notFound t => .notFound t
      | .outOfFuel => .outOfFuel

/-- The recursive closure `extractTableFields` of `getQueriableFields`:
iterates over the schema keys restricted to `allowedFields`, recursing through
link fields with the shared visited set threaded through. Fuel bounds the
recursion depth of the embedding only. -/
def extractTableFields (env : TableStore) :
    Nat → Table → List String → List String → ExtractRes
  | 0, _, _, _ => .outOfFuel
  | fuel + 1, table, allowedFields, visited =>
    extractLoopF env (extractTableFields env fuel) table
      (table.schema.filter (fun p => allowedFields.contains p.1)) visited

/-- Result of `getQueriableFields`. -/
inductive QResult where
  | ok (fields : List String)
  | notFound (tableId : String)
  | outOfFuel
deriving DecidableEq, Repr

/-- Embeds `getQueriableFields(fields, table)`: seeds the visited set with the
table's own id, seeds the result with the always-allowed `_id`, and appends
the expansion of the requested fields. -/
def getQueriableFields (env : TableStore) (fuel : Nat)
    (fields : List String) (table : Table) : QResult :=
  match extractTableFields env fuel table fields [table._id] with
  | .ok fs _ => .ok ("_id" :: fs)
  | .notFound t => .notFound t
  | .outOfFuel => .outOfFuel

/-! ### Generic lemmas about the expansion loop -/

/-- Filtering a schema by its own key set keeps every entry; this is the
`allowedFields` argument the code passes when recursing into a related table. -/
theorem filter_own_keys (s : List (String × FieldSchema)) :
    s.filter (fun p => (s.map Prod.fst).contains p.1) = s := by
  apply List.filter_eq_self.mpr
  intro a ha
  exact List.elem_iff.mpr (List.mem_map_of_mem Prod.fst ha)

/-- A run of non-link fields at the front of the loop contributes exactly its
field names, in order, and leaves the visited set unchanged. -/
theorem extractLoopF_plain_run (env : TableStore)
    (recurse : Table → List String → List String → ExtractRes) (table : Table)
    (l₁ l₂ : List (String × FieldSchema)) (visited fs v : List String)
    (hpl : ∀ p ∈ l₁, p.2.type ≠ FieldType.link)
    (h₂ : extractLoopF env recurse table l₂ visited = .ok fs v) :
    extractLoopF env recurse table (l₁ ++ l₂) visited =
      .ok (l₁.map Prod.fst ++ fs) v := by
  induction l₁ with
  | nil => simpa using h₂
  | cons p l ih =>
    obtain ⟨f, sub⟩ := p
    have hsub : sub.type ≠ FieldType.link := hpl (f, sub) (by simp)
    have hrest := ih (fun q hq => hpl q (List.mem_cons_of_mem _ hq))
    simp only [List.cons_append, extractLoopF]
    rw [if_neg hsub, List.append_eq, hrest]
    rfl

/-- Processing one link field whose forward key `current_related` is already
visited: the field is skipped entirely. -/
theorem extractLoopF_link_skip (env : TableStore)
    (recurse : Table → List String → List String → ExtractRes)
    (table : Table) (fname : String) (sub : FieldSchema)
    (rest : List (String × FieldSchema)) (visited : List String)
    (hlink : sub.type = FieldType.link)
    (hguard : visited.contains (visitKey table._id sub.tableId) = true) :
    extractLoopF env recurse table ((fname, sub) :: rest) visited =
      extractLoopF env recurse table rest visited := by
  simp only [extractLoopF]
  rw [if_pos hlink, if_pos hguard]

/-- Processing one link field whose forward key is unvisited: the reversed key
`related_current` is recorded, the related table is expanded over its entire
schema key set, and the expansion is appended twice — prefixed by the
relationship name and by the related table name. -/
theorem extractLoopF_link_step (env : TableStore)
    (recurse : Table → List String → List String → ExtractRes)
    (table : Table) (fname : String) (sub : FieldSchema)
    (rest : List (String × FieldSchema)) (visited : List String) (rt : Table)
    (rf v' restf v'' : List String)
    (hlink : sub.type = FieldType.link)
    (hguard : visited.contains (visitKey table._id sub.tableId) = false)
    (henv : env sub.tableId = some rt)
    (hrec : recurse rt (rt.schema.map Prod.fst)
        (visited.insert (visitKey sub.tableId table._id)) = .ok rf v')
    (hrest : extractLoopF env recurse table rest v' = .ok restf v'') :
    extractLoopF env recurse table ((fname, sub) :: rest) visited =
      .ok ((rf.map fun f => sub.name ++ "." ++ f) ++
           ((rf.map fun f => rt.name ++ "." ++ f) ++ restf)) v'' := by
  simp only [extractLoopF]
  rw [if_pos hlink, if_neg (ne_true_of_eq_false hguard)]
  simp only [henv, hrec, hrest]

/-- Processing one unvisited link field when the recursion runs out of fuel:
the exhaustion propagates. -/
theorem extractLoopF_link_stuck (env : TableStore)
    (recurse : Table → List String → List String → ExtractRes)
    (table : Table) (fname : String) (sub : FieldSchema)
    (rest : List (String × FieldSchema)) (visited : List String) (rt : Table)
    (hlink : sub.type = FieldType.link)
    (hguard : visited.contains (visitKey table._id sub.tableId) = false)
    (henv : env sub.tableId = some rt)
    (hrec : recurse rt (rt.schema.map Prod.fst)
        (visited.insert (visitKey sub.tableId table._id)) = .outOfFuel) :
    extractLoopF env recurse table ((fname, sub) :: rest) visited = .outOfFuel := by
  simp only [extractLoopF]
  rw [if_pos hlink, if_neg (ne_true_of_eq_false hguard)]
  simp only [henv, hrec]

/-! ### C1 — the visited guard does not block a revisit of the same edge

Table `A` has two link fields `f1`, `f2`, both referencing table `B`.
After traversing the edge `(ta, tb)` through `f1`, the code records the
reversed key `tb_ta`, so the later traversal of the very same directed edge
`(ta, tb)` through `f2` is not skipped. -/

/-- Link field `f1` of the duplicate-edge scenario. -/
def fieldF1 : FieldSchema := { type := .link, name := "f1", tableId := "tb" }

/-- Link field `f2` of the duplicate-edge scenario. -/
def fieldF2 : FieldSchema := { type := .link, name := "f2", tableId := "tb" }

/-- Plain text field `x`. -/
def fieldX : FieldSchema := { type := .text, name := "x" }

/-- Table `A` with two link fields to `B`. -/
def tableA_dup : Table :=
  { _id := "ta", name := "A", schema := [("f1", fieldF1), ("f2", fieldF2)] }

/-- Table `B` with a single plain field. -/
def tableB_dup : Table :=
  { _id := "tb", name := "B", schema := [("x", fieldX)] }

/-- Table store for the duplicate-edge scenario. -/
def envDup : TableStore := fun i =>
  if i = "ta" then some tableA_dup
  else if i = "tb" then some tableB_dup else none

/-- C1: counter-evidence for the visited-pair guard claim. The code checks the
forward key but records the reversed key, so the second link field `f2`
recurses along the already-traversed directed edge `(ta, tb)` again: the
result contains `f2.x` (and a second `B.x`). Under the claim as stated, every
entry derived from the second traversal of `(ta, tb)` would be absent. -/
theorem extract_revisits_directed_edge :
    getQueriableFields envDup 3 ["f1", "f2"] tableA_dup =
      .ok ["_id", "f1.x", "B.x", "f2.x", "B.x"] := rfl

/-! ### C2 — the expansion does not terminate on a three-table cycle

Schema graph `A → B → C → A`. The guard checks the forward key of each edge
but only ever records reversed keys, so after one turn around the cycle no
forward key is in the set and the recursion repeats forever. In the fuel
embedding: the result is `outOfFuel` for every fuel value. -/

/-- Link field of `A` referencing `B`. -/
def relAB : FieldSchema := { type := .link, name := "r", tableId := "tb" }

/-- Link field of `B` referencing `C`. -/
def relBC : FieldSchema := { type := .link, name := "s", tableId := "tc" }

/-- Link field of `C` referencing `A`. -/
def relCA : FieldSchema := { type := .link, name := "t", tableId := "ta" }

/-- Table `A` of the three-cycle. -/
def tableA_cyc : Table := { _id := "ta", name := "A", schema := [("r", relAB)] }

/-- Table `B` of the three-cycle. -/
def tableB_cyc : Table := { _id := "tb", name := "B", schema := [("s", relBC)] }

/-- Table `C` of the three-cycle. -/
def tableC_cyc : Table := { _id := "tc", name := "C", schema := [("t", relCA)] }

/-- Table store for the three-cycle. -/
def envCycle : TableStore := fun i =>
  if i = "ta" then some tableA_cyc
  else if i = "tb" then some tableB_cyc
  else if i = "tc" then some tableC_cyc else none

/-- The visited set reached after one full turn around the cycle; it only
contains reversed keys, so it never blocks any forward edge again. -/
def vStable : List String := ["ta_tc", "tc_tb", "tb_ta", "ta"]

/-- Once the visited set has stabilised, each of the three expansions runs out
of any amount of fuel: the traversal cycles forever. -/
theorem cycle_stuck (n : Nat) :
    extractTableFields envCycle n tableA_cyc ["r"] vStable = .outOfFuel ∧
    extractTableFields envCycle n tableB_cyc ["s"] vStable = .outOfFuel ∧
    extractTableFields envCycle n tableC_cyc ["t"] vStable = .outOfFuel := by
  induction n with
  | zero => exact ⟨rfl, rfl, rfl⟩
  | succ n ih =>
    refine ⟨?_, ?_, ?_⟩
    · show extractLoopF envCycle (extractTableFields envCycle n) tableA_cyc
        [("r", relAB)] vStable = ExtractRes.outOfFuel
      exact extractLoopF_link_stuck envCycle _ tableA_cyc "r" relAB [] vStable
        tableB_cyc rfl rfl rfl ih.2.1
    · show extractLoopF envCycle (extractTableFields envCycle n) tableB_cyc
        [("s", relBC)] vStable = ExtractRes.outOfFuel
      exact extractLoopF_link_stuck envCycle _ tableB_cyc "s" relBC [] vStable
        tableC_cyc rfl rfl rfl ih.2.2
    · show extractLoopF envCycle (extractTableFields envCycle n) tableC_cyc
        [("t", relCA)] vStable = ExtractRes.outOfFuel
      exact extractLoopF_link_stuck envCycle _ tableC_cyc "t" relCA [] vStable
        tableA_cyc rfl rfl rfl ih.1

/-- Third step of the entry path: from `C` with the visited set built so far. -/
theorem cycle_stuck_fromC (n : Nat) :
    extractTableFields envCycle n tableC_cyc ["t"] ["tc_tb", "tb_ta", "ta"] =
      .outOfFuel := by
  cases n with
  | zero => rfl
  | succ n =>
    show extractLoopF envCycle (extractTableFields envCycle n) tableC_cyc
      [("t", relCA)] ["tc_tb", "tb_ta", "ta"] = ExtractRes.outOfFuel
    exact extractLoopF_link_stuck envCycle _ tableC_cyc "t" relCA []
      ["tc_tb", "tb_ta", "ta"] tableA_cyc rfl rfl rfl (cycle_stuck n).1

/-- Second step of the entry path: from `B`. -/
theorem cycle_stuck_fromB (n : Nat) :
    extractTableFields envCycle n tableB_cyc ["s"] ["tb_ta", "ta"] =
      .outOfFuel := by
  cases n with
  | zero => rfl
  | succ n =>
    show extractLoopF envCycle (extractTableFields envCycle n) tableB_cyc
      [("s", relBC)] ["tb_ta", "ta"] = ExtractRes.outOfFuel
    exact extractLoopF_link_stuck envCycle _ tableB_cyc "s" relBC []
      ["tb_ta", "ta"] tableC_cyc rfl rfl rfl (cycle_stuck_fromC n)

/-- First step of the entry path: from `A` with the seed visited set. -/
theorem cycle_entry (n : Nat) :
    extractTableFields envCycle n tableA_cyc ["r"] ["ta"] = .outOfFuel := by
  cases n with
  | zero => rfl
  | succ n =>
    show extractLoopF envCycle (extractTableFields envCycle n) tableA_cyc
      [("r", relAB)] ["ta"] = ExtractRes.outOfFuel
    exact extractLoopF_link_stuck envCycle _ tableA_cyc "r" relAB []
      ["ta"] tableB_cyc rfl rfl rfl (cycle_stuck_fromB n)

/-- C2: on the cyclic schema `A → B → C → A` the expansion never terminates —
for every fuel bound the embedding reports exhaustion, i.e. the visited-edge
guard does not bound the recursion of the real (fuel-free) code. -/
theorem getQueriableFields_three_cycle_diverges (n : Nat) :
    getQueriableFields envCycle n ["r"] tableA_cyc = .outOfFuel := by
  unfold getQueriableFields
  rw [show ([tableA_cyc._id] : List String) = ["ta"] from rfl, cycle_entry n]

/-! ### C3 — two-table cycle: terminates, double qualification, no re-expansion

Tables `A` and `B` with arbitrary plain fields, `A` linking to `B` through
field `r` (relationship name `rel`) and `B` linking back to `A` through field
`back`. The back-edge is blocked because traversing `(ta, tb)` recorded
exactly the key `tb_ta` that guards it. -/

/-- A plain text schema entry named after its key. -/
def mkPlain (n : String) : String × FieldSchema :=
  (n, { type := FieldType.text, name := n })

/-- The link field of `A` referencing `B`, displayed as `rel`. -/
def relCyc2AB : FieldSchema := { type := .link, name := "rel", tableId := "tb" }

/-- The back-link field of `B` referencing `A`. -/
def relCyc2BA : FieldSchema := { type := .link, name := "brel", tableId := "ta" }

/-- Table `A` of the two-cycle: plain fields `plainA` then the link `r`. -/
def tableA2 (plainA : List String) : Table :=
  { _id := "ta", name := "A", schema := plainA.map mkPlain ++ [("r", relCyc2AB)] }

/-- Table `B` of the two-cycle: plain fields `plainB` then the back link. -/
def tableB2 (plainB : List String) : Table :=
  { _id := "tb", name := "B", schema := plainB.map mkPlain ++ [("back", relCyc2BA)] }

/-- Table store for the two-cycle. -/
def envTwoCycle (plainA plainB : List String) : TableStore := fun i =>
  if i = "ta" then some (tableA2 plainA)
  else if i = "tb" then some (tableB2 plainB) else none

/-- Keys of a list of plain entries are the names themselves. -/
theorem map_fst_mkPlain (l : List String) : (l.map mkPlain).map Prod.fst = l := by
  rw [List.map_map]
  have h : Prod.fst ∘ mkPlain = id := funext fun x => rfl
  rw [h, List.map_id]

/-- Plain entries are never links. -/
theorem mkPlain_not_link (p : String × FieldSchema) (l : List String)
    (hp : p ∈ l.map mkPlain) : p.2.type ≠ FieldType.link := by
  obtain ⟨x, _, rfl⟩ := List.mem_map.mp hp
  exact fun h => FieldType.noConfusion h

/-- Expansion of `B` during the traversal from `A`: its plain fields are kept
and the back-edge to `A` is skipped (its guard key `tb_ta` was recorded when
the edge from `A` was taken). -/
theorem twoCycle_inner (plainA plainB : List String) :
    extractTableFields (envTwoCycle plainA plainB) 1 (tableB2 plainB)
      ((tableB2 plainB).schema.map Prod.fst) ["tb_ta", "ta"] =
      .ok plainB ["tb_ta", "ta"] := by
  have h₂ : extractLoopF (envTwoCycle plainA plainB)
      (extractTableFields (envTwoCycle plainA plainB) 0) (tableB2 plainB)
      [("back", relCyc2BA)] ["tb_ta", "ta"] = .ok [] ["tb_ta", "ta"] :=
    (extractLoopF_link_skip (envTwoCycle plainA plainB)
      (extractTableFields (envTwoCycle plainA plainB) 0) (tableB2 plainB)
      "back" relCyc2BA [] ["tb_ta", "ta"] rfl rfl).trans rfl
  have hrun := extractLoopF_plain_run (envTwoCycle plainA plainB)
    (extractTableFields (envTwoCycle plainA plainB) 0) (tableB2 plainB)
    (plainB.map mkPlain) [("back", relCyc2BA)] ["tb_ta", "ta"] [] ["tb_ta", "ta"]
    (fun p hp => mkPlain_not_link p plainB hp) h₂
  rw [map_fst_mkPlain, List.append_nil] at hrun
  show extractLoopF (envTwoCycle plainA plainB)
    (extractTableFields (envTwoCycle plainA plainB) 0) (tableB2 plainB)
    ((tableB2 plainB).schema.filter
      (fun p => (((tableB2 plainB).schema.map Prod.fst)).contains p.1))
    ["tb_ta", "ta"] = .ok plainB ["tb_ta", "ta"]
  rw [filter_own_keys]
  exact hrun

/-- C3: on the two-table cyclic schema, `getQueriableFields` on `A` (with the
link field among the requested fields) terminates with fuel 2 and returns the
requested plain fields of `A` followed by the plain fields of `B` qualified by
the relationship name `rel` and by the table name `B`; moreover every element
of the result is `_id`, a plain field of `A`, or a singly-qualified field of
`B` — nothing is re-expanded through the back-edge. -/
theorem getQueriableFields_two_table_cycle (plainA plainB fields : List String)
    (hr : fields.contains "r" = true) :
    getQueriableFields (envTwoCycle plainA plainB) 2 fields (tableA2 plainA) =
      .ok ("_id" :: (plainA.filter (fun f => fields.contains f) ++
        ((plainB.map fun f => "rel." ++ f) ++ (plainB.map fun f => "B." ++ f)))) ∧
    (∀ x ∈ plainB,
      ("rel." ++ x) ∈ ("_id" :: (plainA.filter (fun f => fields.contains f) ++
        ((plainB.map fun f => "rel." ++ f) ++ (plainB.map fun f => "B." ++ f)))) ∧
      ("B." ++ x) ∈ ("_id" :: (plainA.filter (fun f => fields.contains f) ++
        ((plainB.map fun f => "rel." ++ f) ++ (plainB.map fun f => "B." ++ f))))) ∧
    (∀ y ∈ ("_id" :: (plainA.filter (fun f => fields.contains f) ++
        ((plainB.map fun f => "rel." ++ f) ++ (plainB.map fun f => "B." ++ f)))),
      y = "_id" ∨ y ∈ plainA ∨ ∃ x ∈ plainB, y = "rel." ++ x ∨ y = "B." ++ x) := by
  refine ⟨?_, ?_, ?_⟩
  · have hlinkstep : extractLoopF (envTwoCycle plainA plainB)
        (extractTableFields (envTwoCycle plainA plainB) 1) (tableA2 plainA)
        [("r", relCyc2AB)] ["ta"] =
        .ok ((plainB.map fun f => relCyc2AB.name ++ "." ++ f) ++
             ((plainB.map fun f => (tableB2 plainB).name ++ "." ++ f) ++ []))
          ["tb_ta", "ta"] :=
      extractLoopF_link_step _ _ (tableA2 plainA) "r" relCyc2AB [] ["ta"]
        (tableB2 plainB) plainB ["tb_ta", "ta"] [] ["tb_ta", "ta"]
        rfl rfl rfl (twoCycle_inner plainA plainB) rfl
    have hrun := extractLoopF_plain_run (envTwoCycle plainA plainB)
      (extractTableFields (envTwoCycle plainA plainB) 1) (tableA2 plainA)
      ((plainA.map mkPlain).filter (fun p => fields.contains p.1))
      [("r", relCyc2AB)] ["ta"] _ _
      (fun p hp => mkPlain_not_link p plainA (List.mem_of_mem_filter hp)) hlinkstep
    have hmain : extractTableFields (envTwoCycle plainA plainB) 2
        (tableA2 plainA) fields ["ta"] =
        .ok ((((plainA.map mkPlain).filter (fun p => fields.contains p.1)).map Prod.fst) ++
          ((plainB.map fun f => relCyc2AB.name ++ "." ++ f) ++
           ((plainB.map fun f => (tableB2 plainB).name ++ "." ++ f) ++ [])))
          ["tb_ta", "ta"] := by
      show extractLoopF (envTwoCycle plainA plainB)
        (extractTableFields (envTwoCycle plainA plainB) 1) (tableA2 plainA)
        ((tableA2 plainA).schema.filter (fun p => fields.contains p.1)) ["ta"] = _
      have hsplit : (tableA2 plainA).schema.filter (fun p => fields.contains p.1) =
          (plainA.map mkPlain).filter (fun p => fields.contains p.1) ++
            [("r", relCyc2AB)] := by
        show ((plainA.map mkPlain ++ [("r", relCyc2AB)]).filter
          (fun p => fields.contains p.1)) = _
        rw [List.filter_append]
        simp only [List.filter_cons, List.filter_nil, hr, if_true]
      rw [hsplit]
      exact hrun
    rw [List.map_filter, map_fst_mkPlain, List.append_nil] at hmain
    unfold getQueriableFields
    rw [show ([(tableA2 plainA)._id] : List String) = ["ta"] from rfl, hmain]
    rfl
  · intro x hx
    constructor
    · exact List.mem_cons_of_mem _ (List.mem_append_right _
        (List.mem_append_left _ (List.mem_map_of_mem _ hx)))
    · exact List.mem_cons_of_mem _ (List.mem_append_right _
        (List.mem_append_right _ (List.mem_map_of_mem _ hx)))
  · intro y hy
    rcases List.mem_cons.mp hy with h | h
    · exact Or.inl h
    rcases List.mem_append.mp h with h | h
    · exact Or.inr (Or.inl (List.mem_of_mem_filter h))
    rcases List.mem_append.mp h with h | h
    · obtain ⟨x, hx, rfl⟩ := List.mem_map.mp h
      exact Or.inr (Or.inr ⟨x, hx, Or.inl rfl⟩)
    · obtain ⟨x, hx, rfl⟩ := List.mem_map.mp h
      exact Or.inr (Or.inr ⟨x, hx, Or.inr rfl⟩)

/-- Witness for C3 at `plainA = [a]`, `plainB = [x]`, requested `[a, r]`. -/
theorem getQueriableFields_two_table_cycle_witness :
    ((["a", "r"] : List String).contains "r" = true) ∧
    (getQueriableFields (envTwoCycle ["a"] ["x"]) 2 ["a", "r"] (tableA2 ["a"]) =
      .ok ("_id" :: ((["a"].filter (fun f => (["a", "r"] : List String).contains f)) ++
        (((["x"] : List String).map fun f => "rel." ++ f) ++
         ((["x"] : List String).map fun f => "B." ++ f)))) ∧
    (∀ x ∈ (["x"] : List String),
      ("rel." ++ x) ∈ ("_id" :: ((["a"].filter (fun f => (["a", "r"] : List String).contains f)) ++
        (((["x"] : List String).map fun f => "rel." ++ f) ++
         ((["x"] : List String).map fun f => "B." ++ f)))) ∧
      ("B." ++ x) ∈ ("_id" :: ((["a"].filter (fun f => (["a", "r"] : List String).contains f)) ++
        (((["x"] : List String).map fun f => "rel." ++ f) ++
         ((["x"] : List String).map fun f => "B." ++ f))))) ∧
    (∀ y ∈ ("_id" :: ((["a"].filter (fun f => (["a", "r"] : List String).contains f)) ++
        (((["x"] : List String).map fun f => "rel." ++ f) ++
         ((["x"] : List String).map fun f => "B." ++ f)))),
      y = "_id" ∨ y ∈ (["a"] : List String) ∨
        ∃ x ∈ (["x"] : List String), y = "rel." ++ x ∨ y = "B." ++ x)) :=
  ⟨rfl, getQueriableFields_two_table_cycle ["a"] ["x"] ["a", "r"] rfl⟩

/-! ### C6 — each traversed link contributes two qualified copies -/

/-- C6: when the expansion traverses an unguarded link field, the related
table is expanded over its entire schema key set (`rt.schema.map Prod.fst`,
not the requesting call's field list), and that expansion is appended twice:
once prefixed by the relationship's declared name and once by the related
table's name. The statement covers any point of the loop — `(fname, sub)` is
the head of the remaining field list. -/
theorem link_field_double_qualified (env : TableStore) (fuel : Nat)
    (table : Table) (fname : String) (sub : FieldSchema)
    (rest : List (String × FieldSchema)) (visited : List String) (rt : Table)
    (rf v' restf v'' : List String)
    (hlink : sub.type = FieldType.link)
    (hguard : visited.contains (visitKey table._id sub.tableId) = false)
    (henv : env sub.tableId = some rt)
    (hrec : extractTableFields env fuel rt (rt.schema.map Prod.fst)
        (visited.insert (visitKey sub.tableId table._id)) = .ok rf v')
    (hrest : extractLoopF env (extractTableFields env fuel) table rest v' =
        .ok restf v'') :
    extractLoopF env (extractTableFields env fuel) table
      ((fname, sub) :: rest) visited =
      .ok ((rf.map fun f => sub.name ++ "." ++ f) ++
           ((rf.map fun f => rt.name ++ "." ++ f) ++ restf)) v'' :=
  extractLoopF_link_step env _ table fname sub rest visited rt rf v' restf v''
    hlink hguard henv hrec hrest

/-- Witness for C6 on the duplicate-edge tables at field `f1`. -/
theorem link_field_double_qualified_witness :
    extractLoopF envDup (extractTableFields envDup 1) tableA_dup
      [("f1", fieldF1), ("f2", fieldF2)] ["ta"] =
      .ok (((["x"] : List String).map fun f => fieldF1.name ++ "." ++ f) ++
           (((["x"] : List String).map fun f => tableB_dup.name ++ "." ++ f) ++
            ["f2.x", "B.x"])) ["tb_ta", "ta"] :=
  link_field_double_qualified envDup 1 tableA_dup "f1" fieldF1 [("f2", fieldF2)]
    ["ta"] tableB_dup ["x"] ["tb_ta", "ta"] ["f2.x", "B.x"] ["tb_ta", "ta"]
    rfl rfl rfl rfl rfl

/-! ### C7 — tables without links: exactly the requested keys plus `_id` -/

/-- C7: for a table with no link fields, the result is exactly `_id` followed
by the schema keys that appear in the requested field list — as an equation on
the produced list, and as an exact membership characterisation. -/
theorem getQueriableFields_no_links (env : TableStore) (fuel : Nat)
    (fields : List String) (table : Table)
    (hnl : ∀ p ∈ table.schema, p.2.type ≠ FieldType.link) :
    getQueriableFields env (fuel + 1) fields table =
      .ok ("_id" ::
        (table.schema.filter (fun p => fields.contains p.1)).map Prod.fst) ∧
    ∀ f, f ∈ ("_id" ::
        (table.schema.filter (fun p => fields.contains p.1)).map Prod.fst) ↔
      (f = "_id" ∨ (f ∈ table.schema.map Prod.fst ∧ f ∈ fields)) := by
  constructor
  · have hloop := extractLoopF_plain_run env (extractTableFields env fuel) table
      (table.schema.filter (fun p => fields.contains p.1)) [] [table._id]
      [] [table._id]
      (fun p hp => hnl p (List.mem_of_mem_filter hp)) rfl
    simp only [List.append_nil] at hloop
    unfold getQueriableFields
    rw [show extractTableFields env (fuel + 1) table fields [table._id] =
      extractLoopF env (extractTableFields env fuel) table
        (table.schema.filter (fun p => fields.contains p.1)) [table._id]
      from rfl, hloop]
  · intro f
    simp only [List.mem_cons, List.mem_map, List.mem_filter]
    apply or_congr_right
    constructor
    · rintro ⟨a, ⟨ha, hc⟩, rfl⟩
      exact ⟨⟨a, ha, rfl⟩, List.elem_iff.mp hc⟩
    · rintro ⟨⟨a, ha, rfl⟩, hf⟩
      exact ⟨a, ⟨ha, List.elem_iff.mpr hf⟩, rfl⟩

/-- A one-column table with no links. -/
def tableNoLink : Table := { _id := "t1", name := "T", schema := [("a", fieldX)] }

/-- An empty table store (never consulted when there are no links). -/
def envEmpty : TableStore := fun _ => none

/-- Witness for C7 on the one-column table. -/
theorem getQueriableFields_no_links_witness :
    (∀ p ∈ tableNoLink.schema, p.2.type ≠ FieldType.link) ∧
    getQueriableFields envEmpty 1 ["a"] tableNoLink = .ok ["_id", "a"] :=
  ⟨by decide,
    (getQueriableFields_no_links envEmpty 0 ["a"] tableNoLink (by decide)).1⟩

/-! ### C8 — the identifier field is always in a successful result -/

/-- C8: whatever the store, fuel, requested fields and table, a successful
`getQueriableFields` result contains the synthetic identifier field `_id` —
it is seeded unconditionally, before the schema is consulted. -/
theorem getQueriableFields_includes_id (env : TableStore) (fuel : Nat)
    (fields : List String) (table : Table) (l : List String)
    (h : getQueriableFields env fuel fields table = .ok l) :
    "_id" ∈ l := by
  unfold getQueriableFields at h
  revert h
  cases extractTableFields env fuel table fields [table._id] with
  | ok fs v =>
    intro h
    cases h
    exact List.mem_cons_self _ _
  | notFound t => intro h; cases h
  | outOfFuel => intro h; cases h

/-- Witness for C8: a table whose schema does not even contain `_id`, with a
request that does not ask for it. -/
theorem getQueriableFields_includes_id_witness : ("_id" : String) ∈ ["_id", "a"] :=
  getQueriableFields_includes_id envEmpty 1 ["a"] tableNoLink ["_id", "a"] rfl

/-! ### The search pipeline and the locality-routed read paths -/

/-- The on-empty-filter policy enumeration (`EmptyFilterOption`). -/
inductive EmptyFilterOption where
  | returnAll
  | returnNone
deriving DecidableEq, Repr

/-- A filter tree: the declared empty-filter policy plus an abstract payload
holding the filter groups; their internal structure is owned by the external
filter-normalization library and never inspected by the routing layer. -/
structure Query (P : Type) where
  onEmptyFilter : Option EmptyFilterOption
  payload : P
deriving DecidableEq, Repr

/-- The fields of the search request that this layer reads or writes. -/
structure SearchOptions (P : Type) where
  tableId : String
  query : Query P
  sortOrder : Option String
  fields : Option (List String)
deriving DecidableEq, Repr

/-- The three executors of the dispatch policy. -/
inductive ExecutorKind where
  | external
  | sqs
  | lucene
deriving DecidableEq, Repr

/-- Observable effects of one `search` call: the schema fetch for the
requested table, and the executor dispatched to. -/
inductive SearchEvent where
  | schemaFetch (tableId : String)
  | executor (kind : ExecutorKind)
deriving DecidableEq, Repr

/-- The uniform search response envelope. -/
structure SearchResponse (R : Type) where
  rows : List R
  bookmark : Option String := none
  totalRows : Option Nat := none
deriving DecidableEq, Repr

/-- The view-query parameters (`ViewParams`). -/
structure ViewParams where
  calculation : String
  group : String
  field : String
deriving DecidableEq, Repr

/-- Export options (`ExportRowsParams`): the router only reads the table identifier. -/
structure ExportRowsParams where
  tableId : String
deriving DecidableEq, Repr

/-- The per-backend row API (the `internal` and `external` modules). -/
structure RowApi (E F : Type) where
  exportRows : ExportRowsParams → E
  fetch : String → F
  fetchRaw : String → F
  fetchView : String → ViewParams → F

/-- The collaborators of the routing layer, all opaque at this boundary:
the external-table-id predicate, the filter-normalization helpers, the table
store, the input-mapping and filter-sanitizing helpers, the tenant feature
flag, the three search executors and the two row APIs. -/
structure SearchEnv (P R E F : Type) where
  isExternalTableID : String → Bool
  cleanupQuery : Query P → Query P
  fixupFilterArrays : Query P → Query P
  hasFilters : Query P → Bool
  getTable : String → Option Table
  searchInputMapping : Table → SearchOptions P → SearchOptions P
  removeInvalidFilters : Query P → List String → Query P
  isSqsEnabledForTenant : Bool
  externalSearch : SearchOptions P → Table → Except String (SearchResponse R)
  sqsSearch : SearchOptions P → Table → Except String (SearchResponse R)
  luceneSearch : SearchOptions P → Table → Except String (SearchResponse R)
  externalApi : RowApi E F
  internalApi : RowApi E F

/-- Outcome of a `search` call. -/
inductive SearchResult (R : Type) where
  | ok (resp : SearchResponse R)
  | backendError (msg : String)
  | notFound (tableId : String)
  | outOfFuel
deriving DecidableEq, Repr

/-- Sort-order lowercasing: `options.sortOrder = options.sortOrder.toLowerCase()`
when present. -/
def lowercaseSort {P : Type} (o : SearchOptions P) : SearchOptions P :=
  match o.sortOrder with
  | some so => { o with sortOrder := some so.toLower }
  | none => o

/-- The schema keys whose visibility flag is not `false`
(`table.schema[f].visible !== false`). -/
def visibleFields (table : Table) : List String :=
  (table.schema.filter (fun p => p.2.visible != some false)).map Prod.fst

/-- The field-projection step of `search`: a requested field list is filtered
case-insensitively against the visible schema keys; an absent one defaults to
all visible keys. -/
def projectFields {P : Type} (visibleTableFields : List String)
    (o : SearchOptions P) : SearchOptions P :=
  match o.fields with
  | some fs =>
    { o with fields := some (fs.filter (fun f =>
        (visibleTableFields.map (fun g : String => g.toLower)).contains
          f.toLower)) }
  | none => { o with fields := some visibleTableFields }

/-- The three-way dispatch at the end of `search`, strict order: external
executor when the entry table id was external, else sqs when the tenant flag
is enabled, else lucene. A backend failure propagates; no second strategy is
tried. -/
def searchDispatch {P R E F : Type} (env : SearchEnv P R E F)
    (isExternalTable : Bool) (tid : String) (options₆ : SearchOptions P)
    (table : Table) : SearchResult R × List SearchEvent :=
  if isExternalTable then
    match env.externalSearch options₆ table with
    | .ok r => (.ok r, [SearchEvent.schemaFetch tid,
        SearchEvent.executor .external])
    | .error e => (.backendError e, [SearchEvent.schemaFetch tid,
        SearchEvent.executor .external])
  else if env.isSqsEnabledForTenant then
    match env.sqsSearch options₆ table with
    | .ok r => (.ok r, [SearchEvent.schemaFetch tid,
        SearchEvent.executor .sqs])
    | .error e => (.backendError e, [SearchEvent.schemaFetch tid,
        SearchEvent.executor .sqs])
  else
    match env.luceneSearch options₆ table with
    | .ok r => (.ok r, [SearchEvent.schemaFetch tid,
        SearchEvent.executor .lucene])
    | .error e => (.backendError e, [SearchEvent.schemaFetch tid,
        SearchEvent.executor .lucene])

/-- The part of `search` after the table was resolved: backend input mapping,
visible-field projection, queriable-field computation, invalid-filter
removal, then dispatch. `options₃` is the request after sort-order
lowercasing. -/
def searchWithTable {P R E F : Type} (env : SearchEnv P R E F) (fuel : Nat)
    (isExternalTable : Bool) (options₃ : SearchOptions P) (table : Table) :
    SearchResult R × List SearchEvent :=
  match getQueriableFields env.getTable fuel
      ((projectFields (visibleFields table)
        (env.searchInputMapping table options₃)).fields.getD []) table with
  | .notFound t => (.notFound t, [SearchEvent.schemaFetch options₃.tableId])
  | .outOfFuel => (.outOfFuel, [SearchEvent.schemaFetch options₃.tableId])
  | .ok queriable =>
    searchDispatch env isExternalTable options₃.tableId
      { projectFields (visibleFields table) (env.searchInputMapping table options₃) with
        query := env.removeInvalidFilters
          (projectFields (visibleFields table)
            (env.searchInputMapping table options₃)).query queriable } table

/-- The part of `search` after the empty-filter short-circuit: sort-order
lowercasing, then the schema fetch (NotFound propagates), then
`searchWithTable`. -/
def searchResolve {P R E F : Type} (env : SearchEnv P R E F) (fuel : Nat)
    (isExternalTable : Bool) (options₂ : SearchOptions P) :
    SearchResult R × List SearchEvent :=
  match env.getTable (lowercaseSort options₂).tableId with
  | none => (.notFound (lowercaseSort options₂).tableId,
      [SearchEvent.schemaFetch (lowercaseSort options₂).tableId])
  | some table =>
    searchWithTable env fuel isExternalTable (lowercaseSort options₂) table

/-- The `search` entry point: filter cleanup and fixup, the empty-filter
short-circuit, then the resolve/expand/dispatch pipeline. The external-table
test is taken once, at entry, from the original table id, exactly as in the
source; the stages above are the successive mutations of `options` in the
source function. -/
def search {P R E F : Type} (env : SearchEnv P R E F) (fuel : Nat)
    (options₀ : SearchOptions P) : SearchResult R × List SearchEvent :=
  if env.hasFilters (env.fixupFilterArrays (env.cleanupQuery options₀.query)) =
        false ∧
      (env.fixupFilterArrays (env.cleanupQuery options₀.query)).onEmptyFilter =
        some EmptyFilterOption.returnNone then
    (.ok { rows := [] }, [])
  else
    searchResolve env fuel (env.isExternalTableID options₀.tableId)
      { options₀ with
        query := env.fixupFilterArrays (env.cleanupQuery options₀.query) }

/-- Embeds `pickApi`: external module when the id is an external table id, internal
module otherwise. -/
def pickApi {P R E F : Type} (env : SearchEnv P R E F) (tableId : String) :
    RowApi E F :=
  if env.isExternalTableID tableId then env.externalApi else env.internalApi

/-- Embeds `exportRows`: route by the table id of the options. -/
def exportRows {P R E F : Type} (env : SearchEnv P R E F)
    (options : ExportRowsParams) : E :=
  (pickApi env options.tableId).exportRows options

/-- Embeds `fetch`: route by table id. -/
def fetch {P R E F : Type} (env : SearchEnv P R E F) (tableId : String) : F :=
  (pickApi env tableId).fetch tableId

/-- Embeds `fetchRaw`: route by table id. -/
def fetchRaw {P R E F : Type} (env : SearchEnv P R E F) (tableId : String) : F :=
  (pickApi env tableId).fetchRaw tableId

/-- Embeds `fetchView`: route by table id; only the view name and params are
forwarded. -/
def fetchView {P R E F : Type} (env : SearchEnv P R E F)
    (tableId viewName : String) (params : ViewParams) : F :=
  (pickApi env tableId).fetchView viewName params

/-- The executor invocations recorded in an event log. -/
def executorEvents (log : List SearchEvent) : List ExecutorKind :=
  log.filterMap (fun e =>
    match e with
    | .executor k => some k
    | .schemaFetch _ => none)

/-! ### C4 — empty filter with RETURN_NONE short-circuits -/

/-- C4: when the cleaned-up filter tree has no active conditions and the
declared empty-filter policy is RETURN_NONE, `search` returns an empty row
sequence with an empty event log: no schema fetch and no executor dispatch
happen after the short-circuit, whatever the backends would do. -/
theorem search_empty_filter_returns_none {P R E F : Type}
    (env : SearchEnv P R E F) (fuel : Nat) (options₀ : SearchOptions P)
    (h1 : env.hasFilters (env.fixupFilterArrays (env.cleanupQuery options₀.query)) =
      false)
    (h2 : (env.fixupFilterArrays (env.cleanupQuery options₀.query)).onEmptyFilter =
      some EmptyFilterOption.returnNone) :
    search env fuel options₀ = (.ok { rows := [] }, []) := by
  unfold search
  split
  · rfl
  · rename_i h
    exact absurd ⟨h1, h2⟩ h

/-- A trivial collaborator set over unit payloads, used by the witnesses. -/
def envW : SearchEnv Unit Unit Unit Unit :=
  { isExternalTableID := fun _ => false
    cleanupQuery := fun q => q
    fixupFilterArrays := fun q => q
    hasFilters := fun _ => false
    getTable := fun _ => none
    searchInputMapping := fun _ o => o
    removeInvalidFilters := fun q _ => q
    isSqsEnabledForTenant := false
    externalSearch := fun _ _ => .ok { rows := [] }
    sqsSearch := fun _ _ => .ok { rows := [] }
    luceneSearch := fun _ _ => .ok { rows := [] }
    externalApi :=
      { exportRows := fun _ => ()
        fetch := fun _ => ()
        fetchRaw := fun _ => ()
        fetchView := fun _ _ => () }
    internalApi :=
      { exportRows := fun _ => ()
        fetch := fun _ => ()
        fetchRaw := fun _ => ()
        fetchView := fun _ _ => () } }

/-- A request whose filter declares the RETURN_NONE policy. -/
def optsW : SearchOptions Unit :=
  { tableId := "t"
    query := { onEmptyFilter := some EmptyFilterOption.returnNone, payload := () }
    sortOrder := none
    fields := none }

/-- Witness for C4. -/
theorem search_empty_filter_returns_none_witness :
    (envW.hasFilters (envW.fixupFilterArrays (envW.cleanupQuery optsW.query)) =
      false) ∧
    ((envW.fixupFilterArrays (envW.cleanupQuery optsW.query)).onEmptyFilter =
      some EmptyFilterOption.returnNone) ∧
    search envW 0 optsW = (.ok { rows := [] }, []) :=
  ⟨rfl, rfl, search_empty_filter_returns_none envW 0 optsW rfl rfl⟩

/-! ### C5 — strict-order, state-determined backend selection -/

/-- C5: every `search` call dispatches to at most one executor, and when it
dispatches, the executor is fully determined by table locality and the tenant
flag, in strict order: external if the original table id is an external table
id, else sqs if the tenant flag is set, else lucene. In particular two calls
agreeing on those two inputs select the same executor, and a backend failure
never invokes a second strategy (the log still holds exactly one executor
event in the error outcome). -/
theorem searchDispatch_events {P R E F : Type} (env : SearchEnv P R E F)
    (b : Bool) (tid : String) (o : SearchOptions P) (t : Table) :
    executorEvents (searchDispatch env b tid o t).2 =
      [if b then ExecutorKind.external
       else if env.isSqsEnabledForTenant then ExecutorKind.sqs
       else ExecutorKind.lucene] := by
  unfold searchDispatch
  cases b with
  | true => cases h : env.externalSearch o t <;> simp [executorEvents, h]
  | false =>
    by_cases hs : env.isSqsEnabledForTenant = true
    · cases h : env.sqsSearch o t <;> simp [executorEvents, hs, h]
    · cases h : env.luceneSearch o t <;> simp [executorEvents, hs, h]

theorem searchWithTable_events {P R E F : Type} (env : SearchEnv P R E F)
    (fuel : Nat) (b : Bool) (o₃ : SearchOptions P) (t : Table) :
    executorEvents (searchWithTable env fuel b o₃ t).2 = [] ∨
    executorEvents (searchWithTable env fuel b o₃ t).2 =
      [if b then ExecutorKind.external
       else if env.isSqsEnabledForTenant then ExecutorKind.sqs
       else ExecutorKind.lucene] := by
  unfold searchWithTable
  cases h : getQueriableFields env.getTable fuel
      ((projectFields (visibleFields t)
        (env.searchInputMapping t o₃)).fields.getD []) t with
  | ok queriable => exact Or.inr (searchDispatch_events env b o₃.tableId _ t)
  | notFound t' => exact Or.inl rfl
  | outOfFuel => exact Or.inl rfl

theorem searchResolve_events {P R E F : Type} (env : SearchEnv P R E F)
    (fuel : Nat) (b : Bool) (o₂ : SearchOptions P) :
    executorEvents (searchResolve env fuel b o₂).2 = [] ∨
    executorEvents (searchResolve env fuel b o₂).2 =
      [if b then ExecutorKind.external
       else if env.isSqsEnabledForTenant then ExecutorKind.sqs
       else ExecutorKind.lucene] := by
  unfold searchResolve
  cases h : env.getTable (lowercaseSort o₂).tableId with
  | none => exact Or.inl rfl
  | some table => exact searchWithTable_events env fuel b (lowercaseSort o₂) table

theorem search_backend_selection {P R E F : Type} (env : SearchEnv P R E F)
    (fuel : Nat) (options₀ : SearchOptions P) :
    executorEvents (search env fuel options₀).2 = [] ∨
    executorEvents (search env fuel options₀).2 =
      [if env.isExternalTableID options₀.tableId then ExecutorKind.external
       else if env.isSqsEnabledForTenant then ExecutorKind.sqs
       else ExecutorKind.lucene] := by
  unfold search
  split
  · exact Or.inl rfl
  · exact searchResolve_events env fuel (env.isExternalTableID options₀.tableId) _

/-! ### C9 — export and fetch paths route purely on table locality -/

/-- C9: `exportRows`, `fetch`, `fetchRaw` and `fetchView` call the
corresponding operation of the external API exactly when the table id is an
external table id and of the internal API otherwise; and all four are
unchanged under any change of the tenant sqs flag — their definitions never
consult it, nor the field-expansion step. -/
theorem row_ops_route_on_locality {P R E F : Type} (env : SearchEnv P R E F)
    (b : Bool) (options : ExportRowsParams) (tableId viewName : String)
    (params : ViewParams) :
    (exportRows env options =
      if env.isExternalTableID options.tableId then
        env.externalApi.exportRows options
      else env.internalApi.exportRows options) ∧
    (fetch env tableId =
      if env.isExternalTableID tableId then env.externalApi.fetch tableId
      else env.internalApi.fetch tableId) ∧
    (fetchRaw env tableId =
      if env.isExternalTableID tableId then env.externalApi.fetchRaw tableId
      else env.internalApi.fetchRaw tableId) ∧
    (fetchView env tableId viewName params =
      if env.isExternalTableID tableId then
        env.externalApi.fetchView viewName params
      else env.internalApi.fetchView viewName params) ∧
    (exportRows { env with isSqsEnabledForTenant := b } options =
      exportRows env options) ∧
    (fetch { env with isSqsEnabledForTenant := b } tableId = fetch env tableId) ∧
    (fetchRaw { env with isSqsEnabledForTenant := b } tableId =
      fetchRaw env tableId) ∧
    (fetchView { env with isSqsEnabledForTenant := b } tableId viewName params =
      fetchView env tableId viewName params) := by
  refine ⟨?_, ?_, ?_, ?_, ?_, ?_, ?_, ?_⟩
  · unfold exportRows pickApi
    split <;> rfl
  · unfold fetch pickApi
    split <;> rfl
  · unfold fetchRaw pickApi
    split <;> rfl
  · unfold fetchView pickApi
    split <;> rfl
  · rfl
  · rfl
  · rfl
  · rfl

/-! ### C10 — the document-store put wrapper -/

/-- JS truthiness of an optional string-valued document field: an absent
(undefined or null) field and the empty string are falsy. -/
def jsTruthy : Option String → Bool
  | none => false
  | some s => s != ""

/-- A document: the two timestamp fields the wrapper touches, and the rest of
the document, passed through opaquely. -/
structure Doc (ρ : Type) where
  createdAt : Option String
  updatedAt : Option String
  rest : ρ
deriving DecidableEq, Repr

/-- The `put` wrapper body: set `createdAt` when it is falsy, then overwrite
`updatedAt`; `nowA` and `nowB` are the two `toISOString()` samples taken
during the call, in evaluation order. -/
def putDoc {ρ : Type} (nowA nowB : String) (doc : Doc ρ) : Doc ρ :=
  let doc₁ :=
    if jsTruthy doc.createdAt then doc else { doc with createdAt := some nowA }
  { doc₁ with updatedAt := some nowB }

/-- The underlying PouchDB database handle: a name and the original `put`. -/
structure PouchLikeDB (ρ σ OptsT : Type) where
  name : String
  put : Doc ρ → OptsT → σ

/-- The handle returned by `getPouchDB`: its `put` additionally receives the
two timestamp samples of the call. -/
structure WrappedDB (ρ σ OptsT : Type) where
  name : String
  put : String → String → Doc ρ → OptsT → σ

/-- Embeds `getPouchDB`: throws when `init` has not been called, otherwise returns
the database with `put` replaced by the timestamping wrapper around the
original `put`. (The test-only `dbList` bookkeeping and the MEMORY_LEAK_CHECK
logging are instrumentation with no functional effect and are not modelled.) -/
def getPouchDB {ρ σ OptsT : Type} (initialised : Bool)
    (base : PouchLikeDB ρ σ OptsT) : Except String (WrappedDB ρ σ OptsT) :=
  if initialised then
    .ok { name := base.name
          put := fun nowA nowB doc opts => base.put (putDoc nowA nowB doc) opts }
  else .error "init has not been called"

/-- An underlying store that records the document it is given. -/
def baseCollect : PouchLikeDB Unit (Doc Unit) Unit :=
  { name := "db", put := fun doc _ => doc }

/-- The wrapped handle `getPouchDB` builds over `baseCollect`. -/
def wrappedCollect : WrappedDB Unit (Doc Unit) Unit :=
  { name := "db"
    put := fun nowA nowB doc opts => baseCollect.put (putDoc nowA nowB doc) opts }

/-- C10 counterexample: a document whose `createdAt` field is present but
empty. The claim says a present `createdAt` is left unchanged; the code tests
JS truthiness, so the empty string is overwritten with the current
timestamp. -/
theorem put_overwrites_empty_createdAt :
    getPouchDB true baseCollect = .ok wrappedCollect ∧
    (wrappedCollect.put "2024-01-01T00:00:00.000Z" "2024-01-01T00:00:00.001Z"
        { createdAt := some "", updatedAt := none, rest := () } ()).createdAt =
      some "2024-01-01T00:00:00.000Z" ∧
    (some "" : Option String) ≠ some "2024-01-01T00:00:00.000Z" :=
  ⟨rfl, rfl, by decide⟩

/-- C10 (amended): through any handle returned by `getPouchDB`, the document
reaching the underlying store has `updatedAt` overwritten with the current
timestamp, `createdAt` set to the current timestamp exactly when it was
absent or empty (JS-falsy) and kept otherwise, and every other field passed
through unmodified. -/
theorem getPouchDB_put_timestamps {ρ σ OptsT : Type}
    (base : PouchLikeDB ρ σ OptsT) (db : WrappedDB ρ σ OptsT)
    (h : getPouchDB true base = .ok db) (nowA nowB : String) (doc : Doc ρ)
    (opts : OptsT) :
    db.put nowA nowB doc opts =
      base.put
        { createdAt :=
            if jsTruthy doc.createdAt then doc.createdAt else some nowA
          updatedAt := some nowB
          rest := doc.rest } opts := by
  unfold getPouchDB at h
  rw [if_pos rfl] at h
  injection h with h'
  subst h'
  have hput : putDoc nowA nowB doc =
      { createdAt := if jsTruthy doc.createdAt then doc.createdAt else some nowA
        updatedAt := some nowB
        rest := doc.rest } := by
    unfold putDoc
    by_cases hc : jsTruthy doc.createdAt = true
    · rw [if_pos hc, if_pos hc]
    · rw [if_neg hc, if_neg hc]
  show base.put (putDoc nowA nowB doc) opts = _
  rw [hput]

/-- Witness for the amended C10 on a document with no `createdAt`. -/
theorem getPouchDB_put_timestamps_witness :
    getPouchDB true baseCollect = .ok wrappedCollect ∧
    wrappedCollect.put "A" "B" { createdAt := none, updatedAt := some "z", rest := () } () =
      baseCollect.put { createdAt := some "A", updatedAt := some "B", rest := () } () :=
  ⟨rfl, getPouchDB_put_timestamps baseCollect wrappedCollect rfl "A" "B"
    { createdAt := none, updatedAt := some "z", rest := () } ()⟩

end Budibase
